import Mathlib

/-!
Shallow embedding of `checkmarks/core.py` (repository `menisadi/checkmark`).

The embedding models, straight from the source:

* the two compiled regular expressions
  `TASK_RE = re.compile(r"^\\s*[-*]\\s*\\[(x|X| )]", re.ASCII)` and
  `TITLE_RE = re.compile(r"^\\s*#\\s+(.+)$")`.  Both pattern sources are raw
  strings, so the doubled backslashes stand for *escaped literal backslashes*
  in the pattern: `TASK_RE` matches a literal `\`, a run of literal `s`
  characters, a `-` or `*`, a literal `\`, a run of `s`, a literal `\`, and
  one character of the class containing `(`, `x`, `|`, `X`, space, `)`.
  The parentheses sit inside a character class, so `TASK_RE` has no capture
  group at all; `TITLE_RE` requires a literal `\` before `#` and before the
  run of `s`, and has one capture group `(.+)`.
* `parse_markdown_tasks`, `parse_markdown_title`, `build_stats`,
* `ChecklistManager._load` / `list_paths` on raw decoded JSON data, and
* `ChecklistManager` `add` / `remove` / `_save` / `stats` on well-formed
  state `self._data = dict with key "lists"`.

File-system interaction is made explicit: a file system maps a path to the
decoded text of the regular file at that path (with Python's universal
newlines already applied), or to `none` when no regular file is there.  The
`pathlib` operations used by the code (`expanduser`, `resolve`, `name`,
`stem`) are abstract parameters bundled in `PathModel`; concrete theorems
instantiate them with functions that agree with `pathlib` on the concrete
paths used.  Fallible Python code (subscripting, `m.group(1)` on a pattern
with no groups) is modelled with `Except String`.
-/

/-- Abstract semantics of the `pathlib.Path` operations used by `core.py`:
`expanduser`, `resolve` (absolute canonical form), `name` (final path
component), `stem` (final component without its last suffix). -/
structure PathModel where
  expanduser : String → String
  resolve : String → String
  name : String → String
  stem : String → String

/-- A file system: the decoded text content of the regular file at a path,
or `none` when the path does not resolve to an existing regular file. -/
abbrev FS := String → Option String

/-- Splitting a character list at every occurrence of `sep`. -/
def splitCharAux (sep : Char) (cur : List Char) : List Char → List (List Char)
  | [] => [cur.reverse]
  | c :: cs =>
    if c = sep then cur.reverse :: splitCharAux sep [] cs
    else splitCharAux sep (c :: cur) cs

/-- Splitting a string at every occurrence of `sep`. -/
def splitChar (sep : Char) (s : String) : List String :=
  (splitCharAux sep [] s.data).map (fun cs => String.mk cs)

/-- The line bodies Python's file iteration feeds to the two regexes.
Python yields `\n`-terminated lines (universal newlines already applied by
text mode); neither regex can observe the terminator — `TASK_RE` is not
right-anchored and `TITLE_RE`'s `$` matches just before a final newline —
so we scan the newline-separated bodies.  The extra empty body produced by
a trailing newline matches neither pattern. -/
def splitLines (s : String) : List String := splitChar '\n' s

/-- Membership in the character class `[(x|X| )]` of the compiled `TASK_RE`. -/
def taskClassChar (c : Char) : Bool :=
  c = '(' || c = 'x' || c = '|' || c = 'X' || c = ' ' || c = ')'

/-- Whether the compiled `TASK_RE` (pattern source `^\\s*[-*]\\s*\\[(x|X| )]`,
a raw string, hence: literal `\`, `s*`, `[-*]`, literal `\`, `s*`, literal
`\`, one class character) matches at the start of a line.  The pattern is
deterministic: each `s*` is followed by a character other than `s`, so the
maximal run is the only option and no backtracking arises. -/
def taskReMatches (line : String) : Bool :=
  match line.data with
  | '\\' :: r1 =>
    match r1.dropWhile (fun c => c = 's') with
    | c1 :: '\\' :: r2 =>
      (c1 = '-' || c1 = '*') &&
        (match r2.dropWhile (fun c => c = 's') with
         | '\\' :: c2 :: _ => taskClassChar c2
         | _ => false)
    | _ => false
  | _ => false

/-- Group 1 of the compiled `TITLE_RE` (pattern source `^\\s*#\\s+(.+)$`, a
raw string, hence: literal `\`, `s*`, `#`, literal `\`, `s+`, capture `(.+)`,
end) matched against a line body, or `none` when the line does not match.
When every character after the literal `\` is an `s`, the greedy `s+` gives
one `s` back to the capture provided the run has length at least two;
otherwise the capture is the non-empty remainder after the maximal `s` run. -/
def titleReMatch (line : String) : Option String :=
  match line.data with
  | '\\' :: r1 =>
    match r1.dropWhile (fun c => c = 's') with
    | '#' :: '\\' :: r2 =>
      let run := (r2.takeWhile (fun c => c = 's')).length
      let rest := r2.dropWhile (fun c => c = 's')
      if run = 0 then none
      else if rest.isEmpty then
        if 2 ≤ run then some "s" else none
      else some (String.mk rest)
    | _ => none
  | _ => none

/-- The line loop of `parse_markdown_tasks`.  On a matching line the code
increments `total` and then evaluates `m.group(1)`; the compiled pattern has
no capture group (its parentheses are inside a character class), so
`m.group(1)` raises `IndexError` and the pending counts are discarded with
the raised frame.  The accumulators therefore pass through unchanged on the
non-matching lines that can complete normally. -/
def countTaskLines (completed total : Nat) : List String → Except String (Nat × Nat)
  | [] => .ok (completed, total)
  | l :: ls =>
    if taskReMatches l then .error "IndexError: no such group"
    else countTaskLines completed total ls

/-- `parse_markdown_tasks` from `core.py`: expand the user path, return
`(0, 0)` if no regular file is there, otherwise run the line loop. -/
def parse_markdown_tasks (pm : PathModel) (fs : FS) (file_path : String) :
    Except String (Nat × Nat) :=
  let p := pm.expanduser file_path
  match fs p with
  | none => .ok (0, 0)
  | some content => countTaskLines 0 0 (splitLines content)

/-- The line loop of `parse_markdown_title`: return `m.group(1).strip()` of
the first line matching `TITLE_RE`, and `p.stem` when no line matches. -/
def findTitle (pm : PathModel) (p : String) : List String → String
  | [] => pm.stem p
  | l :: ls =>
    match titleReMatch l with
    | some g => g.trim
    | none => findTitle pm p ls

/-- `parse_markdown_title` from `core.py`: expand the user path, return
`p.name` if no regular file is there, otherwise scan the lines. -/
def parse_markdown_title (pm : PathModel) (fs : FS) (file_path : String) : String :=
  let p := pm.expanduser file_path
  match fs p with
  | none => pm.name p
  | some content => findTitle pm p (splitLines content)

/-- The fields of `ChecklistStat` (the derived float `percent` is not
modelled; no claim concerns it). -/
structure ChecklistStat where
  path : String
  title : String
  completed : Nat
  total : Nat

/-- `build_stats` from `core.py`: one stat per input path, in input order;
`pth = Path(p).expanduser()` is computed first and handed to both parsers
(which expand again internally).  An exception raised by
`parse_markdown_tasks` on some path propagates out before later paths are
visited. -/
def build_stats (pm : PathModel) (fs : FS) : List String → Except String (List ChecklistStat)
  | [] => .ok []
  | p :: ps =>
    let pth := pm.expanduser p
    match parse_markdown_tasks pm fs pth with
    | .error e => .error e
    | .ok (c, t) =>
      match build_stats pm fs ps with
      | .error e => .error e
      | .ok rest => .ok (⟨pth, parse_markdown_title pm fs pth, c, t⟩ :: rest)

/-- A decoded Python value as produced by `json.loads`. -/
inductive PyVal where
  | vnull
  | vbool (b : Bool)
  | vint (n : Int)
  | vstr (s : String)
  | vlist (xs : List PyVal)
  | vdict (kvs : List (String × PyVal))

/-- Python subscripting `value[key]` with a string key, as in
`self._data["lists"]`: a dict lookup that raises `KeyError` on a missing
key, and a `TypeError` on every non-dict value. -/
def PyVal.getItem : PyVal → String → Except String PyVal
  | .vdict kvs, k =>
    match kvs.lookup k with
    | some v => .ok v
    | none => .error ("KeyError: " ++ k)
  | .vlist _, _ => .error "TypeError: list indices must be integers or slices, not str"
  | .vstr _, _ => .error "TypeError: string indices must be integers"
  | _, _ => .error "TypeError: object is not subscriptable"

/-- `ChecklistManager._load`: `raw` is `none` when the config path is not a
regular file, `some none` when the file reads but `json.loads` raises
`JSONDecodeError`, and `some (some v)` when it decodes to `v`.  The decoded
value is stored as `self._data` unchanged — no shape is checked and the
legacy bare-array form is not normalized. -/
def ChecklistManager.load (raw : Option (Option PyVal)) : PyVal :=
  match raw with
  | some (some v) => v
  | some none => .vdict [("lists", .vlist [])]
  | none => .vdict [("lists", .vlist [])]

/-- `ChecklistManager.list_paths` acting on the raw loaded data: it returns
`self._data["lists"]`, whatever subscripting does on that value. -/
def ChecklistManager.listPathsData (d : PyVal) : Except String PyVal :=
  d.getItem "lists"

/-- Manager state in the well-formed regime `self._data = dict with a
string list under "lists"`: `lists` is that list, `file` is the decoded
tracked list persisted in the backing config file (`none` before the first
save), and `writes` counts the calls to `_save`. -/
structure MState where
  lists : List String
  file : Option (List String)
  writes : Nat

/-- The normalization `str(Path(p).expanduser().resolve())` used by `add`
and `remove`. -/
def normPath (pm : PathModel) (p : String) : String :=
  pm.resolve (pm.expanduser p)

/-- `ChecklistManager._save`: overwrite the backing file with the current
tracked list. -/
def ChecklistManager.save (s : MState) : MState :=
  { s with file := some s.lists, writes := s.writes + 1 }

/-- `ChecklistManager.add`: append the normalized path iff absent, saving
only in that case. -/
def ChecklistManager.add (pm : PathModel) (s : MState) (markdown_path : String) : MState :=
  let md := normPath pm markdown_path
  if md ∈ s.lists then s
  else ChecklistManager.save { s with lists := s.lists ++ [md] }

/-- `ChecklistManager.remove`: drop the first occurrence of the normalized
path iff present (Python's `list.remove` removes the first occurrence),
saving only in that case. -/
def ChecklistManager.remove (pm : PathModel) (s : MState) (markdown_path : String) : MState :=
  let md := normPath pm markdown_path
  if md ∈ s.lists then ChecklistManager.save { s with lists := s.lists.erase md }
  else s

/-- `ChecklistManager.list_paths` in the well-formed regime. -/
def ChecklistManager.list_paths (s : MState) : List String := s.lists

/-- `ChecklistManager.stats`: `build_stats` over `list_paths()`. -/
def ChecklistManager.stats (pm : PathModel) (fs : FS) (s : MState) :
    Except String (List ChecklistStat) :=
  build_stats pm fs (ChecklistManager.list_paths s)

/-- `pathlib`'s `Path.name` (final component) for the plain slash-separated
paths used in the concrete inputs below. -/
def pyName (s : String) : String := (splitChar '/' s).getLastD s

/-- `pathlib`'s `Path.stem` (final component without its last suffix, kept
whole when the only dot is the leading one) for the concrete inputs below. -/
def pyStem (s : String) : String :=
  let n := pyName s
  match n.data.reverse.findIdx? (fun c => c = '.') with
  | none => n
  | some i =>
    let pos := n.data.length - 1 - i
    if pos = 0 then n else String.mk (n.data.take pos)

/-- A concrete path model for witnesses and counterexamples: relative plain
paths are their own expansion and resolution, and `name` / `stem` follow
`pathlib` on such paths. -/
def cModel : PathModel :=
  { expanduser := id, resolve := id, name := pyName, stem := pyStem }

/-- The empty file system: no path is a regular file. -/
def emptyFS : FS := fun _ => none

/-- The spec's example file content. -/
def exampleContent : String := "# My List\n- [ ] a\n- [x] b\n* [X] c\n"

/-- A file system holding the spec's example content at `todo.md`. -/
def exampleFS : FS :=
  fun p => if p = "todo.md" then some exampleContent else none

/-- A file system holding, at `f.md`, a file whose single line `\-\\x`
does match the compiled `TASK_RE`. -/
def backslashFS : FS :=
  fun p => if p = "f.md" then some "\\-\\\\x\n" else none

/-! Helper lemmas shared by the claim theorems. -/

/-- The line loop of `parse_markdown_tasks` can only complete normally with
the accumulators it started from: every matching line aborts it. -/
theorem countTaskLines_ok_eq (c t : Nat) :
    ∀ (ls : List String) (c' t' : Nat),
      countTaskLines c t ls = .ok (c', t') → c' = c ∧ t' = t := by
  intro ls
  induction ls with
  | nil =>
    intro c' t' h
    simp [countTaskLines] at h
    omega
  | cons l ls ih =>
    intro c' t' h
    simp only [countTaskLines] at h
    split at h
    · simp at h
    · exact ih c' t' h

/-- Unfolding `add` when the normalized path is already tracked. -/
theorem CM_add_of_mem (pm : PathModel) (s : MState) (p : String)
    (h : normPath pm p ∈ s.lists) : ChecklistManager.add pm s p = s := by
  simp [ChecklistManager.add, h]

/-- Unfolding `add` when the normalized path is not tracked yet. -/
theorem CM_add_of_not_mem (pm : PathModel) (s : MState) (p : String)
    (h : normPath pm p ∉ s.lists) :
    ChecklistManager.add pm s p =
      ChecklistManager.save { s with lists := s.lists ++ [normPath pm p] } := by
  simp [ChecklistManager.add, h]

/-- Unfolding `remove` when the normalized path is tracked. -/
theorem CM_remove_of_mem (pm : PathModel) (s : MState) (p : String)
    (h : normPath pm p ∈ s.lists) :
    ChecklistManager.remove pm s p =
      ChecklistManager.save { s with lists := s.lists.erase (normPath pm p) } := by
  simp [ChecklistManager.remove, h]

/-- Unfolding `remove` when the normalized path is not tracked. -/
theorem CM_remove_of_not_mem (pm : PathModel) (s : MState) (p : String)
    (h : normPath pm p ∉ s.lists) : ChecklistManager.remove pm s p = s := by
  simp [ChecklistManager.remove, h]

/-- After `add`, the normalized path is in the tracked list. -/
theorem CM_add_mem (pm : PathModel) (s : MState) (p : String) :
    normPath pm p ∈ (ChecklistManager.add pm s p).lists := by
  by_cases h : normPath pm p ∈ s.lists
  · rw [CM_add_of_mem pm s p h]
    exact h
  · rw [CM_add_of_not_mem pm s p h]
    simp [ChecklistManager.save]

/-- When the normalized path occurs at most once before `add`, it occurs
exactly once after. -/
theorem CM_add_count (pm : PathModel) (s : MState) (p : String)
    (h : s.lists.count (normPath pm p) ≤ 1) :
    (ChecklistManager.add pm s p).lists.count (normPath pm p) = 1 := by
  by_cases h1 : normPath pm p ∈ s.lists
  · rw [CM_add_of_mem pm s p h1]
    exact Nat.le_antisymm h (List.count_pos_iff.mpr h1)
  · rw [CM_add_of_not_mem pm s p h1]
    simp [ChecklistManager.save, List.count_eq_zero.mpr h1]

/-- Over a file system with no regular files, `build_stats` succeeds and
yields an all-zero stat per path. -/
theorem build_stats_of_no_files (pm : PathModel) (fs : FS) (hfs : ∀ q, fs q = none) :
    ∀ l : List String,
      build_stats pm fs l =
        .ok (l.map fun p =>
          ⟨pm.expanduser p, pm.name (pm.expanduser (pm.expanduser p)), 0, 0⟩) := by
  intro l
  induction l with
  | nil => simp [build_stats]
  | cons p ps ih =>
    simp [build_stats, parse_markdown_tasks, parse_markdown_title, hfs, ih]

/-! The claims. -/

/-- Claim C1: refuted by the code as written.  On the spec's example content
`"# My List\n- [ ] a\n- [x] b\n* [X] c\n"` the code's `parse_markdown_tasks`
returns `(0, 0)`, not the claimed `(2, 3)`: the doubled backslashes in the
raw-string source of `TASK_RE` make every match require a literal backslash,
so no example line matches the compiled pattern. -/
theorem C1_task_counts_example :
    parse_markdown_tasks cModel exampleFS "todo.md" = .ok (0, 0) ∧
      ((0, 0) : Nat × Nat) ≠ (2, 3) :=
  ⟨rfl, by decide⟩

/-- Claim C2: refuted by the code as written.  On the spec's example content
the code's `parse_markdown_title` returns the stem `"todo"` of the file
name, not the claimed `"My List"`: the compiled `TITLE_RE` requires a
literal backslash before `#`, so the heading line does not match. -/
theorem C2_title_example :
    parse_markdown_title cModel exampleFS "todo.md" = "todo" ∧
      "todo" ≠ "My List" :=
  ⟨rfl, by decide⟩

/-- Claim C3: refuted by the code as written.  `_load` stores a decoded
legacy bare-array config as `self._data` without normalizing it, so
`list_paths()` evaluates `self._data["lists"]` on a list and raises
`TypeError` instead of returning the legacy paths expected by the repo's
own test `test_legacy_schema_migrated`. -/
theorem C3_legacy_array_raises :
    ChecklistManager.listPathsData
        (ChecklistManager.load (some (some (.vlist [.vstr "a.md", .vstr "b.md"])))) =
      .error "TypeError: list indices must be integers or slices, not str" :=
  rfl

/-- Claim C4: refuted by the code as written.  Two failure modes raise out
of the public operations: `parse_markdown_tasks` raises `IndexError` on a
file whose line `\-\\x` matches the compiled `TASK_RE` (which has no
capture group for `m.group(1)` to fetch), and `list_paths()` raises
`TypeError` when the config file held valid JSON that is not a dict (here
the bare array `[]`). -/
theorem C4_exceptions_escape :
    parse_markdown_tasks cModel backslashFS "f.md" =
        .error "IndexError: no such group" ∧
      ChecklistManager.listPathsData (ChecklistManager.load (some (some (.vlist [])))) =
        .error "TypeError: list indices must be integers or slices, not str" :=
  ⟨rfl, rfl⟩

/-- Claim C5, counterexample to the claim as stated: for the nonexistent
path `missing.md` the code returns the full final component `"missing.md"`
(`Path.name`), not the claimed base name without extension `"missing"`. -/
theorem C5_cex :
    parse_markdown_title cModel emptyFS "missing.md" = "missing.md" ∧
      "missing.md" ≠ "missing" :=
  ⟨rfl, by decide⟩

/-- Claim C5 as amended: for every path that does not resolve to an
existing regular file, `parse_markdown_tasks` returns `(0, 0)` and
`parse_markdown_title` returns the file's base name *including* its
extension (`Path.name`), and neither function fails with an error. -/
theorem C5_missing_file (pm : PathModel) (fs : FS) (p : String)
    (h : fs (pm.expanduser p) = none) :
    parse_markdown_tasks pm fs p = .ok (0, 0) ∧
      parse_markdown_title pm fs p = pm.name (pm.expanduser p) := by
  constructor
  · simp [parse_markdown_tasks, h]
  · simp [parse_markdown_title, h]

/-- Concrete instance of the amended C5 at `missing.md` over the empty file
system. -/
theorem C5_missing_file_witness :
    emptyFS (cModel.expanduser "missing.md") = none ∧
      (parse_markdown_tasks cModel emptyFS "missing.md" = .ok (0, 0) ∧
        parse_markdown_title cModel emptyFS "missing.md" =
          cModel.name (cModel.expanduser "missing.md")) :=
  ⟨rfl, C5_missing_file cModel emptyFS "missing.md" rfl⟩

/-- Claim C6: a config file whose content is not valid JSON makes
`json.loads` raise `JSONDecodeError`; `_load` catches it and falls back to
the default data, so construction succeeds and `list_paths()` returns the
empty list with no error. -/
theorem C6_malformed_config :
    ChecklistManager.load (some none) = .vdict [("lists", .vlist [])] ∧
      ChecklistManager.listPathsData (ChecklistManager.load (some none)) =
        .ok (.vlist []) :=
  ⟨rfl, rfl⟩

/-- Claim C7: whenever `parse_markdown_tasks` returns a pair
`(completed, total)`, `completed ≤ total`. -/
theorem C7_completed_le_total (pm : PathModel) (fs : FS) (p : String) (c t : Nat)
    (h : parse_markdown_tasks pm fs p = .ok (c, t)) : c ≤ t := by
  cases hfs : fs (pm.expanduser p) with
  | none =>
    simp only [parse_markdown_tasks, hfs, Except.ok.injEq, Prod.mk.injEq] at h
    omega
  | some content =>
    simp only [parse_markdown_tasks, hfs] at h
    obtain ⟨hc, ht⟩ := countTaskLines_ok_eq 0 0 _ c t h
    omega

/-- Concrete instance of C7 on the spec's example content. -/
theorem C7_witness :
    parse_markdown_tasks cModel exampleFS "todo.md" = .ok (0, 0) ∧ (0 : Nat) ≤ 0 :=
  ⟨rfl, C7_completed_le_total cModel exampleFS "todo.md" 0 0 rfl⟩

/-- Claim C8, counterexample to the claim as stated: over a manager state
whose tracked list already holds two occurrences of the normalized path
(reachable by loading a config file with a duplicated entry), `add` is a
no-op and `list_paths()` keeps both occurrences, not exactly one. -/
theorem C8_cex :
    ((ChecklistManager.add cModel ⟨["a", "a"], none, 0⟩ "a").lists.count "a" = 2) ∧
      (2 : Nat) ≠ 1 :=
  ⟨rfl, by decide⟩

/-- Claim C8 as amended: for every path and every manager state whose
tracked list holds at most one occurrence of the normalized form of the
path (in particular every duplicate-free state), after `add(path)` the
tracked list holds exactly one occurrence of the normalized form, a second
`add(path)` returns the state unchanged, and a subsequent `remove(path)`
leaves the normalized form absent. -/
theorem C8_add_round_trip (pm : PathModel) (s : MState) (p : String)
    (h : s.lists.count (normPath pm p) ≤ 1) :
    (ChecklistManager.add pm s p).lists.count (normPath pm p) = 1 ∧
      ChecklistManager.add pm (ChecklistManager.add pm s p) p =
        ChecklistManager.add pm s p ∧
      normPath pm p ∉ (ChecklistManager.remove pm (ChecklistManager.add pm s p) p).lists := by
  refine ⟨CM_add_count pm s p h, CM_add_of_mem pm _ p (CM_add_mem pm s p), ?_⟩
  have hc := CM_add_count pm s p h
  rw [CM_remove_of_mem pm _ p (CM_add_mem pm s p)]
  simp only [ChecklistManager.save]
  rw [← List.count_eq_zero]
  rw [List.count_erase_self, hc]

/-- Concrete instance of the amended C8: adding `b` to a state tracking
only `a`. -/
theorem C8_witness :
    (⟨["a"], none, 0⟩ : MState).lists.count (normPath cModel "b") ≤ 1 ∧
      ((ChecklistManager.add cModel ⟨["a"], none, 0⟩ "b").lists.count (normPath cModel "b") = 1 ∧
        ChecklistManager.add cModel (ChecklistManager.add cModel ⟨["a"], none, 0⟩ "b") "b" =
          ChecklistManager.add cModel ⟨["a"], none, 0⟩ "b" ∧
        normPath cModel "b" ∉
          (ChecklistManager.remove cModel
            (ChecklistManager.add cModel ⟨["a"], none, 0⟩ "b") "b").lists) :=
  ⟨by decide, C8_add_round_trip cModel ⟨["a"], none, 0⟩ "b" (by decide)⟩

/-- Claim C9: `add` of an already-present normalized path and `remove` of
an absent one return the state unchanged — same tracked list, same backing
file content, and no `_save` call. -/
theorem C9_no_write_when_unchanged (pm : PathModel) (s : MState) (p : String) :
    (normPath pm p ∈ s.lists → ChecklistManager.add pm s p = s) ∧
      (normPath pm p ∉ s.lists → ChecklistManager.remove pm s p = s) :=
  ⟨CM_add_of_mem pm s p, CM_remove_of_not_mem pm s p⟩

/-- Concrete instance of C9: a redundant `add` and a redundant `remove`
both leave the state intact. -/
theorem C9_witness :
    ChecklistManager.add cModel ⟨["a"], none, 0⟩ "a" = ⟨["a"], none, 0⟩ ∧
      ChecklistManager.remove cModel ⟨["b"], none, 0⟩ "a" = ⟨["b"], none, 0⟩ :=
  ⟨(C9_no_write_when_unchanged cModel ⟨["a"], none, 0⟩ "a").1 (by decide),
   (C9_no_write_when_unchanged cModel ⟨["b"], none, 0⟩ "a").2 (by decide)⟩

/-- Claim C10: `add` does not require a file to exist.  Over a file system
with no regular files, after `add(path)` the normalized form is tracked
(and literally appended when it was absent), and `stats()` succeeds,
containing a record for it with `completed = 0` and `total = 0`. -/
theorem C10_add_nonexistent (pm : PathModel) (fs : FS) (s : MState) (p : String)
    (hfs : ∀ q, fs q = none) :
    normPath pm p ∈ (ChecklistManager.add pm s p).lists ∧
      (normPath pm p ∉ s.lists →
        (ChecklistManager.add pm s p).lists = s.lists ++ [normPath pm p]) ∧
      ∃ l, ChecklistManager.stats pm fs (ChecklistManager.add pm s p) = .ok l ∧
        ∃ st ∈ l, st.path = pm.expanduser (normPath pm p) ∧
          st.completed = 0 ∧ st.total = 0 := by
  refine ⟨CM_add_mem pm s p, ?_, ?_⟩
  · intro h
    rw [CM_add_of_not_mem pm s p h]
    simp [ChecklistManager.save]
  · refine ⟨_, build_stats_of_no_files pm fs hfs _, ?_⟩
    refine ⟨⟨pm.expanduser (normPath pm p),
      pm.name (pm.expanduser (pm.expanduser (normPath pm p))), 0, 0⟩, ?_, rfl, rfl, rfl⟩
    exact List.mem_map_of_mem _ (CM_add_mem pm s p)

/-- Concrete instance of C10: adding `x.md` to a fresh manager over the
empty file system. -/
theorem C10_witness :
    (∀ q, emptyFS q = none) ∧
      (normPath cModel "x.md" ∈ (ChecklistManager.add cModel ⟨[], none, 0⟩ "x.md").lists ∧
        (normPath cModel "x.md" ∉ (⟨[], none, 0⟩ : MState).lists →
          (ChecklistManager.add cModel ⟨[], none, 0⟩ "x.md").lists =
            (⟨[], none, 0⟩ : MState).lists ++ [normPath cModel "x.md"]) ∧
        ∃ l, ChecklistManager.stats cModel emptyFS
              (ChecklistManager.add cModel ⟨[], none, 0⟩ "x.md") = .ok l ∧
          ∃ st ∈ l, st.path = cModel.expanduser (normPath cModel "x.md") ∧
            st.completed = 0 ∧ st.total = 0) :=
  ⟨fun _ => rfl, C10_add_nonexistent cModel emptyFS ⟨[], none, 0⟩ "x.md" (fun _ => rfl)⟩
